import Mathlib

/-!
Verification development for the Marlin job/task store client (lib/marlin.js)
and the per-zone task execution driver (lib/agent/lackey.js).

Modelling conventions used throughout:
- ISO-8601 timestamps are represented by their millisecond values (Nat);
  the iso8601 encoding is strictly monotone, so string comparisons on time
  fields in store filters become numeric comparisons.
- Moray records are pairs of a value and an optimistic-concurrency token
  (etag), modelled as Nat.
- Asynchronous store and HTTP interactions are modelled by explicit
  parameters holding the responses the external collaborator produced
  (success flags, response status codes, per-bucket delete counts), and the
  effects an operation performs are collected into explicit lists of
  write or request descriptions.
- JavaScript field absence is Option.none; JavaScript string truthiness
  (present and nonempty) is made explicit where the source relies on it.
-/

namespace Marlin

/-! ## Task execution driver: lib/agent/lackey.js -/

/-- A reduce batch as delivered by the parent agent: the pending input keys
and the flag saying whether more keys may still arrive.  Mirrors the
taskInputKeys and taskInputDone fields used by mazDoneBatch. -/
structure ReduceBatch where
  taskInputKeys : List String
  taskInputDone : Bool
  deriving Repr, DecidableEq

/-- Requests the lackey can make to the parent agent while handling a drain
signal, plus the fatal-exit effect taken when the commit fails. -/
inductive LackeyReq where
  | commit (key : String) (nkeys : Nat)
  | taskPoll
  | exitFatal
  deriving Repr, DecidableEq

/-- Embedding of mazDoneBatch (lib/agent/lackey.js lines 340-389): invoked on
the drain signal for the just-drained batch.  If the batch has no keys or an
executor result has already been recorded, nothing is done.  Otherwise one
commit is posted with the first key of the batch and the count of keys in it;
if the commit errors the process exits fatally; otherwise, unless the batch
was final or the current task has been cleared, one long poll is issued for
the next batch of the same task.  The returned list is the sequence of
parent-agent requests made. -/
def mazDoneBatch (batch : ReduceBatch) (mazCurrentTask : Option String)
    (mazExecutorResult : Option Nat) (commitFails : Bool) : List LackeyReq :=
  match batch.taskInputKeys with
  | [] => []
  | k :: rest =>
    if mazExecutorResult.isSome then []
    else
      LackeyReq.commit k (rest.length + 1) ::
        (if commitFails then [LackeyReq.exitFatal]
         else if batch.taskInputDone || mazCurrentTask.isNone then []
         else [LackeyReq.taskPoll])

/-- Classification a parent-agent request receives in mazParentRequest:
the callback is invoked with the result (success), invoked with the error
(fatal, never retried), or the request is re-issued after the fixed delay. -/
inductive ReqClass where
  | success
  | fatal
  | retry
  deriving Repr, DecidableEq

/-- Embedding of the success test in mazParentRequest: the response status
equals the expected code, or, when no expected code was given, is in the
200-399 range. -/
def statusMatches (expected : Option Nat) (s : Nat) : Bool :=
  match expected with
  | some e => s == e
  | none => 200 ≤ s && s < 400

/-- Embedding of the retry decision of mazParentRequest (lib/agent/lackey.js
lines 551-604).  err says whether the transport reported an error; status is
the response status code when a response exists.  No error and a matching
status is success; otherwise a response with status in 400-499 other than 410
makes the callback fire with the error (fatal); every other outcome is
retried after the fixed delay. -/
def mazParentRequestClassify (expected : Option Nat) (err : Bool)
    (status : Option Nat) : ReqClass :=
  if !err && (match status with
              | some s => statusMatches expected s
              | none => false) then
    ReqClass.success
  else if (match status with
           | some s => 400 ≤ s && s != 410 && s < 500
           | none => false) then
    ReqClass.fatal
  else
    ReqClass.retry

/-- The task-local state of the lackey that mazTaskReport clears when its
report request completes: current task, executor, executor result, saved
error. -/
structure TaskLocalState where
  mazCurrentTask : Option String
  mazExecutor : Option Nat
  mazExecutorResult : Option Nat
  mazErrorSave : Option String
  deriving Repr, DecidableEq

/-- Embedding of the completion callback of mazTaskReport (lib/agent/lackey.js
lines 460-482): whether or not an error was surfaced (e.g. a 409 because the
task was already finalized explicitly), all task-local state is cleared and
mazTaskFetch is invoked; the Bool records that the next fetch was issued. -/
def mazTaskReportFinish (_e : Option String) (_s : TaskLocalState) :
    TaskLocalState × Bool :=
  (⟨none, none, none, none⟩, true)

/-- State of the liveness heartbeat machinery: the mazLivenessPending flag,
and the number of heartbeat requests issued whose responses have not yet
arrived. -/
structure LivenessState where
  mazLivenessPending : Bool
  inFlight : Nat
  deriving Repr, DecidableEq

/-- Embedding of mazTaskLivenessTick (lib/agent/lackey.js lines 529-543).
If mazLivenessPending is set the tick returns immediately.  Otherwise it sets
mazLivenessPending and calls mazParentRequest, which synchronously invokes
the makerequest function; that function first clears mazLivenessPending and
then issues the HTTP request.  The net effect of an unskipped tick is
therefore: pending ends up clear and one more request is in flight. -/
def mazTaskLivenessTick (s : LivenessState) : LivenessState :=
  if s.mazLivenessPending then s
  else { mazLivenessPending := false, inFlight := s.inFlight + 1 }

/-- A heartbeat response arrives: one fewer request in flight.  The response
callback of the liveness request does not touch mazLivenessPending. -/
def livenessResponseArrives (s : LivenessState) : LivenessState :=
  { s with inFlight := s.inFlight - 1 }

/-- Interleavings of timer ticks and heartbeat responses. -/
inductive LivenessEvent where
  | tick
  | response
  deriving Repr, DecidableEq

/-- Run a sequence of liveness events from a state. -/
def runLiveness : LivenessState → List LivenessEvent → LivenessState
  | s, [] => s
  | s, LivenessEvent.tick :: rest => runLiveness (mazTaskLivenessTick s) rest
  | s, LivenessEvent.response :: rest =>
      runLiveness (livenessResponseArrives s) rest

/-- Initial liveness state when a task starts running: no pending flag, no
request in flight. -/
def livenessInit : LivenessState := ⟨false, 0⟩

/-! ## Theorems for the driver claims -/

/-- C1: for a reduce task whose drained batch has keys a, b, c and
taskInputDone = false, with the task current and no executor result recorded,
the drain handler makes exactly one commit whose body carries the first key
and the key count 3, followed by exactly one long poll for the next batch;
if the drained batch has zero keys, or an executor result is already
recorded, no commit and no long poll are made. -/
theorem mazDoneBatch_spec :
    (∀ a b c t, mazDoneBatch ⟨[a, b, c], false⟩ (some t) none false =
      [LackeyReq.commit a 3, LackeyReq.taskPoll]) ∧
    (∀ d ct er f, mazDoneBatch ⟨[], d⟩ ct er f = []) ∧
    (∀ batch ct r f, mazDoneBatch batch ct (some r) f = []) := by
  refine ⟨fun a b c t => rfl, fun d ct er f => rfl, fun batch ct r f => ?_⟩
  cases batch with
  | mk keys done => cases keys <;> simp [mazDoneBatch]

/-- C5 counterexample: a 409 response (here to the task report, whose
expected status is 204) is classified fatal by mazParentRequest, i.e. the
error is surfaced to the caller at once; it is not placed in the
retried-after-delay class as the claim states. -/
theorem mazParentRequest409_fatal :
    mazParentRequestClassify (some 204) true (some 409) = ReqClass.fatal ∧
    ReqClass.fatal ≠ ReqClass.retry := by
  exact ⟨rfl, by decide⟩

/-- C5 (amended): for the expected statuses the driver uses (200, 204, or
none), any 4xx response other than 410 - including 409 - is fatal and
non-retryable; 5xx responses, transport errors without a response, 410, and
unexpected sub-400 statuses are retried after the fixed delay; and the
completion callback of the task report clears all task-local state and
issues the next task fetch whether or not an error (such as the surfaced
409) was reported to it. -/
theorem mazParentRequest_retry_policy :
    (∀ expected err s,
      (expected = some 200 ∨ expected = some 204 ∨ expected = none) →
      400 ≤ s → s < 500 → s ≠ 410 →
      mazParentRequestClassify expected err (some s) = ReqClass.fatal) ∧
    (∀ expected err s,
      (expected = some 200 ∨ expected = some 204 ∨ expected = none) →
      500 ≤ s →
      mazParentRequestClassify expected err (some s) = ReqClass.retry) ∧
    (∀ expected err,
      mazParentRequestClassify expected err none = ReqClass.retry) ∧
    (∀ expected err,
      (expected = some 200 ∨ expected = some 204 ∨ expected = none) →
      mazParentRequestClassify expected err (some 410) = ReqClass.retry) ∧
    (∀ expected err s, s < 400 → statusMatches expected s = false →
      mazParentRequestClassify expected err (some s) = ReqClass.retry) ∧
    (∀ e s, mazTaskReportFinish e s = (⟨none, none, none, none⟩, true)) := by
  have hmatch : ∀ (expected : Option Nat) (s : Nat),
      (expected = some 200 ∨ expected = some 204 ∨ expected = none) →
      400 ≤ s → statusMatches expected s = false := by
    intro expected s hexp hs
    rcases hexp with h | h | h <;> subst h <;> simp [statusMatches] <;> omega
  refine ⟨?_, ?_, ?_, ?_, ?_, fun e s => rfl⟩
  · intro expected err s hexp h1 h2 h3
    simp only [mazParentRequestClassify, hmatch expected s hexp h1]
    have h4 : (400 ≤ s && s != 410 && s < 500) = true := by
      simp [Nat.le_of_lt, h1, h2]
      omega
    simp [h4]
  · intro expected err s hexp h1
    have h0 : 400 ≤ s := by omega
    simp only [mazParentRequestClassify, hmatch expected s hexp h0]
    have h4 : (400 ≤ s && s != 410 && s < 500) = false := by
      simp; omega
    simp [h4]
  · intro expected err
    simp [mazParentRequestClassify]
  · intro expected err hexp
    have := hmatch expected 410 hexp (by omega)
    simp [mazParentRequestClassify, this]
  · intro expected err s h1 h2
    have h4 : (400 ≤ s && s != 410 && s < 500) = false := by
      simp; omega
    simp [mazParentRequestClassify, h2, h4]

/-- C5 witness: a 404 on the task fetch (expected 200) is classified fatal,
and a 500 on the same request is retried. -/
theorem mazParentRequest_retry_policy_witness :
    mazParentRequestClassify (some 200) true (some 404) = ReqClass.fatal ∧
    mazParentRequestClassify (some 200) true (some 500) = ReqClass.retry := by
  exact ⟨mazParentRequest_retry_policy.1 (some 200) true 404 (Or.inl rfl)
      (by decide) (by decide) (by decide),
    mazParentRequest_retry_policy.2.1 (some 200) true 500 (Or.inl rfl)
      (by decide)⟩

/-- C6: evaluating the liveness machinery at the failing event sequence: the
first tick issues a heartbeat; before its response arrives a second tick
fires, and because mazLivenessPending was already cleared (inside the
makerequest function, at issuance) the second tick is not skipped, leaving
two heartbeat requests in flight - the claimed at-most-one-in-flight bound
does not hold. -/
theorem liveness_two_in_flight :
    runLiveness livenessInit [LivenessEvent.tick, LivenessEvent.tick] =
      ⟨false, 2⟩ ∧ ¬ (2 ≤ 1) := by
  exact ⟨rfl, by decide⟩

/-! ## Job/task store client: lib/marlin.js (job records) -/

/-- A job record value as written by jobCreate and mutated through
jobFetchAndUpdate.  Timestamps are millisecond values; absent fields are
none. -/
structure Job where
  jobId : String
  name : String
  owner : String
  state : String
  input : Option String := none
  worker : Option String := none
  timeCreated : Option Nat := none
  timeInputDone : Option Nat := none
  timeCancelled : Option Nat := none
  timeArchiveStarted : Option Nat := none
  timeArchiveDone : Option Nat := none
  timeDone : Option Nat := none
  wrasse : Option String := none
  deriving Repr, DecidableEq

/-- JavaScript truthiness of an optional string field: present and
nonempty. -/
def jsTruthyStr : Option String → Bool
  | none => false
  | some s => s ≠ ""

/-- Error categories surfaced by the job read-modify-write operations:
fetch failure, the invalid-state error raised when ending input on a piped
job (the VError naming the job and its piped input source), and an
optimistic-concurrency conflict on the conditional write. -/
inductive MarlinErr where
  | fetchFailed
  | invalidState (jobId : String) (pipedFrom : String)
  | putConflict
  deriving Repr, DecidableEq

/-- The pure mutation functions handed to jobFetchAndUpdate by the five
mutating job operations: jobCancel, jobEndInput, jobArchiveStart,
jobArchiveDone and jobArchiveHeartbeat. -/
inductive JobUpdate where
  | cancel (now : Nat)
  | endInput (now : Nat)
  | archiveStart (now : Nat) (wrasse : Option String)
  | archiveDone (now : Nat)
  | archiveHeartbeat
  deriving Repr, DecidableEq

/-- Embedding of the updatef bodies (lib/marlin.js lines 586-612, 974-1014):
jobCancel sets timeCancelled to now; jobEndInput returns an error when the
job input field is truthy (piped job) and otherwise sets timeInputDone;
jobArchiveStart sets timeArchiveStarted and wrasse; jobArchiveDone sets
timeArchiveDone; jobArchiveHeartbeat modifies nothing. -/
def applyJobUpdate : JobUpdate → Job → Except MarlinErr Job
  | JobUpdate.cancel now, j => Except.ok { j with timeCancelled := some now }
  | JobUpdate.endInput now, j =>
      if jsTruthyStr j.input then
        Except.error (MarlinErr.invalidState j.jobId (j.input.getD ""))
      else
        Except.ok { j with timeInputDone := some now }
  | JobUpdate.archiveStart now w, j =>
      Except.ok { j with timeArchiveStarted := some now, wrasse := w }
  | JobUpdate.archiveDone now, j =>
      Except.ok { j with timeArchiveDone := some now }
  | JobUpdate.archiveHeartbeat, j => Except.ok j

/-- A stored Moray job record: the value together with its
optimistic-concurrency token. -/
structure JobRecordStored where
  value : Job
  etag : Nat
  deriving Repr, DecidableEq

/-- A conditional write of a job value, carrying the etag the write is
conditioned on. -/
inductive JobWrite where
  | put (value : Job) (etag : Nat)
  deriving Repr, DecidableEq

/-- Embedding of jobFetchAndUpdateTry (lib/marlin.js lines 508-548): fetch
the record (stored is none when the fetch fails); apply the mutation
function to a deep copy of the value; if it returns an error, surface it
without writing; otherwise write the new value conditioned on the fetched
etag (putOk says whether the conditional write succeeded) and on success
return the pre-mutation record to the caller.  The first component collects
the conditional writes issued against the store. -/
def jobFetchAndUpdateTry (stored : Option JobRecordStored) (putOk : Bool)
    (updatef : Job → Except MarlinErr Job) :
    List JobWrite × Except MarlinErr JobRecordStored :=
  match stored with
  | none => ([], Except.error MarlinErr.fetchFailed)
  | some rec =>
    match updatef rec.value with
    | Except.error e => ([], Except.error e)
    | Except.ok newval =>
      if putOk then ([JobWrite.put newval rec.etag], Except.ok rec)
      else ([JobWrite.put newval rec.etag], Except.error MarlinErr.putConflict)

/-- C4: for a job record whose input field is not the degenerate empty
string (jobCreate only ever stores a truthy input), jobEndInput fails with
the invalid-state error exactly when the input field is present, regardless
of the rest of the record; when it fails for that reason no write is issued,
and when the input field is absent the operation writes the record back with
timeInputDone set and, if the conditional write succeeds, returns the
pre-mutation record. -/
theorem jobEndInput_spec (j : Job) (et now : Nat) (putOk : Bool)
    (hin : j.input ≠ some "") :
    ((∃ p, (jobFetchAndUpdateTry (some ⟨j, et⟩) putOk
        (applyJobUpdate (JobUpdate.endInput now))).2 =
        Except.error (MarlinErr.invalidState j.jobId p)) ↔ j.input.isSome) ∧
    (j.input.isSome →
      (jobFetchAndUpdateTry (some ⟨j, et⟩) putOk
        (applyJobUpdate (JobUpdate.endInput now))).1 = []) ∧
    (j.input = none →
      (jobFetchAndUpdateTry (some ⟨j, et⟩) putOk
          (applyJobUpdate (JobUpdate.endInput now))).1 =
        [JobWrite.put { j with timeInputDone := some now } et] ∧
      (putOk = true →
        (jobFetchAndUpdateTry (some ⟨j, et⟩) putOk
          (applyJobUpdate (JobUpdate.endInput now))).2 = Except.ok ⟨j, et⟩)) := by
  cases hj : j.input with
  | none =>
    refine ⟨?_, ?_, ?_⟩
    · simp only [jobFetchAndUpdateTry, applyJobUpdate, jsTruthyStr, hj]
      constructor
      · rintro ⟨p, hp⟩
        cases putOk <;> simp_all
      · intro h
        simp [hj] at h
    · intro h
      simp [hj] at h
    · intro _
      simp only [jobFetchAndUpdateTry, applyJobUpdate, jsTruthyStr, hj]
      constructor
      · cases putOk <;> simp
      · intro hok
        subst hok
        simp
  | some s =>
    have hs : s ≠ "" := fun h => hin (by simp [hj, h])
    have htr : jsTruthyStr j.input = true := by simp [jsTruthyStr, hj, hs]
    refine ⟨?_, ?_, ?_⟩
    · simp only [jobFetchAndUpdateTry, applyJobUpdate, htr, if_pos]
      constructor
      · intro _
        simp [hj]
      · intro _
        exact ⟨s, by simp [hj]⟩
    · intro _
      simp only [jobFetchAndUpdateTry, applyJobUpdate, htr, if_pos]
    · intro h
      simp [hj] at h

/-- C4 witness: a job with a piped input fails with the invalid-state error,
at the concrete record with jobId j2 and input j1. -/
theorem jobEndInput_spec_witness :
    ((⟨"j2", "", "bob", "queued", some "j1", none, none, none, none, none,
        none, none, none⟩ : Job).input ≠ some "") ∧
    (∃ p, (jobFetchAndUpdateTry
        (some ⟨⟨"j2", "", "bob", "queued", some "j1", none, none, none, none,
          none, none, none, none⟩, 7⟩) true
        (applyJobUpdate (JobUpdate.endInput 1000))).2 =
        Except.error (MarlinErr.invalidState "j2" p)) := by
  refine ⟨by decide, ?_⟩
  exact (jobEndInput_spec _ 7 1000 true (by decide)).1.mpr (by decide)

/-- Helper: the writes issued by a single read-modify-write try are
determined by the outcome of the mutation function alone; the conditional
write carries the fetched etag whether or not it ends up succeeding. -/
theorem jobFetchAndUpdateTry_writes (rec : JobRecordStored) (putOk : Bool)
    (f : Job → Except MarlinErr Job) :
    (jobFetchAndUpdateTry (some rec) putOk f).1 =
      match f rec.value with
      | Except.error _ => []
      | Except.ok nv => [JobWrite.put nv rec.etag] := by
  simp only [jobFetchAndUpdateTry]
  cases f rec.value <;> cases putOk <;> rfl

/-- C9: every job value written back to the store by any of the five
read-modify-write operations (cancel, end-input, archive-start,
archive-done, archive-heartbeat) keeps timeInputDone set if the fetched
pre-state had it set, and likewise for timeCancelled: neither field is ever
cleared by a write. -/
theorem jobUpdates_monotone (u : JobUpdate) (rec : JobRecordStored)
    (putOk : Bool) (v : Job) (et : Nat)
    (h : JobWrite.put v et ∈
      (jobFetchAndUpdateTry (some rec) putOk (applyJobUpdate u)).1) :
    (rec.value.timeInputDone.isSome → v.timeInputDone.isSome) ∧
    (rec.value.timeCancelled.isSome → v.timeCancelled.isSome) := by
  rw [jobFetchAndUpdateTry_writes] at h
  cases u with
  | cancel now =>
    simp only [applyJobUpdate] at h
    simp only [List.mem_singleton, JobWrite.put.injEq] at h
    rw [h.1]
    simp
  | endInput now =>
    simp only [applyJobUpdate] at h
    cases htr : jsTruthyStr rec.value.input with
    | true => simp [htr] at h
    | false =>
      simp only [htr, Bool.false_eq_true, if_false, List.mem_singleton,
        JobWrite.put.injEq] at h
      rw [h.1]
      simp
  | archiveStart now w =>
    simp only [applyJobUpdate] at h
    simp only [List.mem_singleton, JobWrite.put.injEq] at h
    rw [h.1]
    simp
  | archiveDone now =>
    simp only [applyJobUpdate] at h
    simp only [List.mem_singleton, JobWrite.put.injEq] at h
    rw [h.1]
    simp
  | archiveHeartbeat =>
    simp only [applyJobUpdate] at h
    simp only [List.mem_singleton, JobWrite.put.injEq] at h
    rw [h.1]
    exact ⟨id, id⟩

/-- Sample pre-state for the C9 witness: a running job with timeInputDone
set. -/
def sampleJobPre : Job :=
  { jobId := "j1", name := "", owner := "bob", state := "running",
    timeCreated := some 1, timeInputDone := some 2 }

/-- Sample post-state for the C9 witness: the value jobCancel writes back at
time 9. -/
def sampleJobPost : Job := { sampleJobPre with timeCancelled := some 9 }

/-- C9 witness: cancelling a job whose timeInputDone is set writes back a
value that still has timeInputDone set. -/
theorem jobUpdates_monotone_witness :
    (JobWrite.put sampleJobPost 3 ∈
      (jobFetchAndUpdateTry (some ⟨sampleJobPre, 3⟩) true
        (applyJobUpdate (JobUpdate.cancel 9))).1) ∧
    ((sampleJobPre.timeInputDone.isSome → sampleJobPost.timeInputDone.isSome) ∧
      (sampleJobPre.timeCancelled.isSome →
        sampleJobPost.timeCancelled.isSome)) :=
  ⟨by decide,
    jobUpdates_monotone (JobUpdate.cancel 9) ⟨sampleJobPre, 3⟩ true
      sampleJobPost 3 (by decide)⟩

/-- C10: jobArchiveHeartbeat applies the identity mutation: the value
written back (conditioned on the fetched etag) is exactly the value that was
read, field for field, and the pre-mutation record is returned to the
caller. -/
theorem jobArchiveHeartbeat_identity (rec : JobRecordStored) :
    jobFetchAndUpdateTry (some rec) true
        (applyJobUpdate JobUpdate.archiveHeartbeat) =
      ([JobWrite.put rec.value rec.etag], Except.ok rec) := rfl

/-! ## Job/task store client: taskDone (lib/marlin.js) -/

/-- A task record value.  Absent fields are none; timestamps are
millisecond values. -/
structure TaskRecord where
  taskId : String
  jobId : String
  phaseNum : Nat
  state : String
  input : Option String := none
  p0input : Option String := none
  mantaComputeId : Option String := none
  machine : Option String := none
  timeAccepted : Option Nat := none
  timeStarted : Option Nat := none
  timeDone : Option Nat := none
  result : Option String := none
  nOutputs : Option Nat := none
  deriving Repr, DecidableEq

/-- An error record as written by taskDoneWriteOthers when no output count
was given. -/
structure ErrorRecord where
  errorId : String
  jobId : String
  phaseNum : Nat
  errorCode : String
  errorMessage : String
  input : Option String
  p0input : Option String
  taskId : String
  server : Option String
  machine : Option String
  deriving Repr, DecidableEq

/-- A task-output record as written by taskDoneWriteOthers for each emitted
output of a successful task. -/
structure TaskOutputRecord where
  jobId : String
  taskId : String
  phaseNum : Nat
  output : String
  timeCreated : Nat
  deriving Repr, DecidableEq

/-- Store writes the taskDone pipeline can issue: one error record, one
task-output record, or the conditional write-back of the task record with
the etag it is conditioned on. -/
inductive TaskWrite where
  | putError (e : ErrorRecord)
  | putTaskOutput (o : TaskOutputRecord)
  | putTask (t : TaskRecord) (etag : Nat)
  deriving Repr, DecidableEq

/-- Embedding of taskDoneWriteOthers (lib/marlin.js lines 1408-1479), on the
path where every store write succeeds: with no output count one error record
is written; with output count 0 nothing is written; with output count n one
task-output record is written per output.  uuid stands for the generated
error record id. -/
def taskDoneWriteOthers (task : TaskRecord) (nout : Option Nat)
    (ecode emessage uuid : String) (now : Nat) : List TaskWrite :=
  match nout with
  | none =>
      [TaskWrite.putError
        { errorId := uuid, jobId := task.jobId, phaseNum := task.phaseNum,
          errorCode := ecode, errorMessage := emessage, input := task.input,
          p0input := task.p0input, taskId := task.taskId,
          server := task.mantaComputeId, machine := task.machine }]
  | some n =>
      (List.range n).map (fun _ =>
        TaskWrite.putTaskOutput
          { jobId := task.jobId, taskId := task.taskId,
            phaseNum := task.phaseNum, output := "/nobody/stor/nonexistent",
            timeCreated := now })

/-- Embedding of the record mutation in taskDoneWriteTask (lib/marlin.js
lines 1481-1511): state becomes done and timeDone the current time; machine,
timeAccepted and timeStarted are filled only when absent - machine with the
constant placeholder string, the two timestamps with the current time; with
an output count the result is ok and nOutputs the count, otherwise the
result is fail. -/
def taskDoneWriteTaskValue (task : TaskRecord) (nout : Option Nat)
    (now : Nat) : TaskRecord :=
  let t1 := { task with state := "done", timeDone := some now }
  let t2 := if t1.machine.isSome then t1
            else { t1 with machine := some "mrjob_fake_machine" }
  let t3 := if t2.timeAccepted.isSome then t2
            else { t2 with timeAccepted := some now }
  let t4 := if t3.timeStarted.isSome then t3
            else { t3 with timeStarted := some now }
  match nout with
  | some n => { t4 with result := some "ok", nOutputs := some n }
  | none => { t4 with result := some "fail" }

/-- Embedding of the taskDone pipeline (lib/marlin.js lines 1367-1511):
fetch the task record (stored is none when the fetch fails), failing with
"task is already done" when its state is done; then write the error or
task-output records; then write the task back conditioned on the fetched
etag.  The vasync pipeline stops at the first failing stage, so a fetch
failure produces no writes.  Returns the writes issued and the error,
if any. -/
def taskDone (stored : Option (TaskRecord × Nat)) (nout : Option Nat)
    (ecode emessage uuid : String) (now : Nat) :
    List TaskWrite × Option String :=
  match stored with
  | none => ([], some "failed to fetch task")
  | some (task, etag) =>
    if task.state = "done" then ([], some "task is already done")
    else
      (taskDoneWriteOthers task nout ecode emessage uuid now ++
        [TaskWrite.putTask (taskDoneWriteTaskValue task nout now) etag],
       none)

/-- C3: invoking taskDone on a task whose stored record is already in state
done fails in the fetch stage with no error record, no task-output record
and no task write-back; and the record written back by a successful
invocation is in state done, so a second invocation for the same task id
after a successful first one performs no writes at all. -/
theorem taskDone_already_done :
    (∀ task etag nout ecode emessage uuid now, task.state = "done" →
      taskDone (some (task, etag)) nout ecode emessage uuid now =
        ([], some "task is already done")) ∧
    (∀ task nout now nout' etag ecode emessage uuid now',
      taskDone (some (taskDoneWriteTaskValue task nout now, etag)) nout'
          ecode emessage uuid now' =
        ([], some "task is already done")) := by
  have hstate : ∀ task nout now,
      (taskDoneWriteTaskValue task nout now).state = "done" := by
    intro task nout now
    simp only [taskDoneWriteTaskValue]
    cases nout <;>
      (dsimp only; split <;> split <;> split <;> rfl)
  refine ⟨?_, ?_⟩
  · intro task etag nout ecode emessage uuid now hdone
    simp [taskDone, hdone]
  · intro task nout now nout' etag ecode emessage uuid now'
    simp [taskDone, hstate]

/-- C3 witness: a concrete dispatched task is finalized once; the second
taskDone call on the record written back fails with no writes. -/
theorem taskDone_already_done_witness :
    ((⟨"t1", "j1", 0, "done", none, none, none, none, none, none, none,
        none, none⟩ : TaskRecord).state = "done") ∧
    taskDone (some (⟨"t1", "j1", 0, "done", none, none, none, none, none,
        none, none, none, none⟩, 5)) (some 1) "" "" "u1" 77 =
      ([], some "task is already done") :=
  ⟨rfl, taskDone_already_done.1 _ 5 (some 1) "" "" "u1" 77 rfl⟩

/-- Blank dispatched task used by the C7 counterexample: machine,
timeAccepted and timeStarted never set. -/
def blankTask : TaskRecord :=
  { taskId := "t1", jobId := "j1", phaseNum := 0, state := "dispatched" }

/-- C7 counterexample: writing back a task whose machine field was never set
fills it with the constant placeholder string mrjob_fake_machine, not with
the current time: two runs at distinct current times 1000 and 2000 produce
the same machine value, while timeAccepted tracks the current time as the
claim describes. -/
theorem taskDoneWriteTask_machine_placeholder :
    (taskDoneWriteTaskValue blankTask (some 1) 1000).machine =
      some "mrjob_fake_machine" ∧
    (taskDoneWriteTaskValue blankTask (some 1) 2000).machine =
      some "mrjob_fake_machine" ∧
    (taskDoneWriteTaskValue blankTask (some 1) 1000).timeAccepted =
      some 1000 ∧
    (taskDoneWriteTaskValue blankTask (some 1) 2000).timeAccepted =
      some 2000 :=
  ⟨rfl, rfl, rfl, rfl⟩

/-- Helper: field-level description of the record produced by
taskDoneWriteTaskValue. -/
theorem taskDoneWriteTaskValue_fields (task : TaskRecord) (nout : Option Nat)
    (now : Nat) :
    (taskDoneWriteTaskValue task nout now).state = "done" ∧
    (taskDoneWriteTaskValue task nout now).timeDone = some now ∧
    (taskDoneWriteTaskValue task nout now).machine =
      (if task.machine.isSome then task.machine
       else some "mrjob_fake_machine") ∧
    (taskDoneWriteTaskValue task nout now).timeAccepted =
      (if task.timeAccepted.isSome then task.timeAccepted else some now) ∧
    (taskDoneWriteTaskValue task nout now).timeStarted =
      (if task.timeStarted.isSome then task.timeStarted else some now) ∧
    (taskDoneWriteTaskValue task nout now).result =
      (match nout with
       | some _ => some "ok"
       | none => some "fail") ∧
    (taskDoneWriteTaskValue task nout now).nOutputs =
      (match nout with
       | some n => some n
       | none => task.nOutputs) := by
  obtain ⟨tid, jid, ph, st, inp, p0, mc, mach, ta, ts, td, res, no⟩ := task
  cases nout <;> cases mach <;> cases ta <;> cases ts <;>
    exact ⟨rfl, rfl, rfl, rfl, rfl, rfl, rfl⟩

/-- C7 (amended): the write-back stage of taskDone sets state done and
timeDone to the current time; result is ok with nOutputs equal to the given
output count when one was supplied and fail otherwise; timeAccepted and
timeStarted are filled with the current time exactly when never set; machine
is filled exactly when never set, but with the placeholder string
mrjob_fake_machine rather than the current time; and the write is
conditioned on the etag obtained by the fetch stage. -/
theorem taskDoneWriteTask_spec (task : TaskRecord) (nout : Option Nat)
    (now : Nat) (etag : Nat) (ecode emessage uuid : String) :
    (taskDoneWriteTaskValue task nout now).state = "done" ∧
    (taskDoneWriteTaskValue task nout now).timeDone = some now ∧
    (∀ n, nout = some n →
      (taskDoneWriteTaskValue task nout now).result = some "ok" ∧
      (taskDoneWriteTaskValue task nout now).nOutputs = some n) ∧
    (nout = none →
      (taskDoneWriteTaskValue task nout now).result = some "fail") ∧
    (task.machine = none →
      (taskDoneWriteTaskValue task nout now).machine =
        some "mrjob_fake_machine") ∧
    (task.machine.isSome →
      (taskDoneWriteTaskValue task nout now).machine = task.machine) ∧
    (task.timeAccepted = none →
      (taskDoneWriteTaskValue task nout now).timeAccepted = some now) ∧
    (task.timeAccepted.isSome →
      (taskDoneWriteTaskValue task nout now).timeAccepted =
        task.timeAccepted) ∧
    (task.timeStarted = none →
      (taskDoneWriteTaskValue task nout now).timeStarted = some now) ∧
    (task.timeStarted.isSome →
      (taskDoneWriteTaskValue task nout now).timeStarted =
        task.timeStarted) ∧
    (task.state ≠ "done" →
      (taskDone (some (task, etag)) nout ecode emessage uuid now).1 =
        taskDoneWriteOthers task nout ecode emessage uuid now ++
          [TaskWrite.putTask (taskDoneWriteTaskValue task nout now) etag]) := by
  obtain ⟨h1, h2, h3, h4, h5, h6, h7⟩ := taskDoneWriteTaskValue_fields task nout now
  refine ⟨h1, h2, ?_, ?_, ?_, ?_, ?_, ?_, ?_, ?_, ?_⟩
  · intro n hn
    subst hn
    exact ⟨h6, h7⟩
  · intro hn
    subst hn
    exact h6
  · intro hm
    rw [h3]
    simp [hm]
  · intro hm
    rw [h3, if_pos hm]
  · intro ha
    rw [h4]
    simp [ha]
  · intro ha
    rw [h4, if_pos ha]
  · intro hs
    rw [h5]
    simp [hs]
  · intro hs
    rw [h5, if_pos hs]
  · intro hne
    simp [taskDone, hne]

/-- C7 witness: the amended description evaluated on a task with machine and
timeStarted already set and timeAccepted absent, finalized with two
outputs. -/
theorem taskDoneWriteTask_spec_witness :
    ((⟨"t2", "j1", 1, "accepted", none, none, none, some "zone1", none,
        some 5, none, none, none⟩ : TaskRecord).machine.isSome) ∧
    ((taskDoneWriteTaskValue ⟨"t2", "j1", 1, "accepted", none, none, none,
        some "zone1", none, some 5, none, none, none⟩ (some 2) 50).machine =
      some "zone1") ∧
    ((taskDoneWriteTaskValue ⟨"t2", "j1", 1, "accepted", none, none, none,
        some "zone1", none, some 5, none, none, none⟩ (some 2)
        50).timeAccepted = some 50) := by
  refine ⟨by decide, ?_, ?_⟩
  · exact (taskDoneWriteTask_spec ⟨"t2", "j1", 1, "accepted", none, none,
      none, some "zone1", none, some 5, none, none, none⟩ (some 2) 50 0 ""
      "" "").2.2.2.2.2.1 (by decide)
  · exact (taskDoneWriteTask_spec ⟨"t2", "j1", 1, "accepted", none, none,
      none, some "zone1", none, some 5, none, none, none⟩ (some 2) 50 0 ""
      "" "").2.2.2.2.2.2.1 rfl

/-! ## Job/task store client: jobDelete (lib/marlin.js lines 356-473) -/

/-- Embedding of the per-response bucket bookkeeping in jobDelete's cb
(lib/marlin.js lines 430-443): walk the per-bucket delete counts of a batch
response; a bucket whose count is below the page limit is filtered out of
the pending requests; any count not below the limit clears internals-done.
Returns the surviving requests and the internals-done flag. -/
def processEtags (limit : Nat) :
    List String × Bool → List (String × Nat) → List String × Bool
  | acc, [] => acc
  | (reqs, internalsDone), (b, c) :: rest =>
      if c < limit then
        processEtags limit (reqs.filter (fun r => r ≠ b), internalsDone) rest
      else
        processEtags limit (reqs, false) rest

/-- Steps the cascading delete performs against the store: one batched
multi-bucket delete-many call over the named buckets, or the final delete of
the job record itself. -/
inductive DelStep where
  | batchDelete (buckets : List String)
  | deleteJobRecord
  deriving Repr, DecidableEq

/-- Outcome of a jobDelete run: callback invoked without error, callback
invoked with an error, or still awaiting the response to the last issued
batch (the response oracle ran out). -/
inductive DelOutcome where
  | ok
  | failed
  | awaitingResponse
  deriving Repr, DecidableEq

/-- A response to one batch call: an error, or the per-bucket deleted-record
counts (the meta.etags array). -/
inductive BatchResp where
  | err
  | etags (cs : List (String × Nat))
  deriving Repr, DecidableEq

/-- Embedding of jobDelete's batch loop (lib/marlin.js lines 415-473):
issue a batch delete over the pending buckets and consume the next oracle
response.  An error invokes the callback with the error and stops.
Otherwise buckets that deleted fewer than limit records are dropped; if any
bucket may still hold records (internals-done false) the next batch is
issued over the survivors; if all are exhausted the job record itself is
deleted (finalDeleteOk tells whether that delete succeeded) and the
callback fires.  Returns the steps performed and the outcome. -/
def jobDeleteRun (limit : Nat) (finalDeleteOk : Bool) :
    List String → List BatchResp → List DelStep × DelOutcome
  | reqs, [] => ([DelStep.batchDelete reqs], DelOutcome.awaitingResponse)
  | reqs, BatchResp.err :: _ => ([DelStep.batchDelete reqs], DelOutcome.failed)
  | reqs, BatchResp.etags cs :: rest =>
    let pe := processEtags limit (reqs, true) cs
    if pe.2 then
      ([DelStep.batchDelete reqs, DelStep.deleteJobRecord],
       if finalDeleteOk then DelOutcome.ok else DelOutcome.failed)
    else
      let r := jobDeleteRun limit finalDeleteOk pe.1 rest
      (DelStep.batchDelete reqs :: r.1, r.2)

/-- The five child buckets jobDelete drains before deleting the job record:
jobinput, error, task, taskinput, taskoutput. -/
def jobDeleteBuckets : List String :=
  ["jobinput", "error", "task", "taskinput", "taskoutput"]

/-- Embedding of jobDelete(jobId): run the batch loop starting from the five
child buckets. -/
def jobDelete (limit : Nat) (finalDeleteOk : Bool) (oracle : List BatchResp) :
    List DelStep × DelOutcome :=
  jobDeleteRun limit finalDeleteOk jobDeleteBuckets oracle

/-- Helper: membership in the surviving bucket list after one response:
a bucket survives exactly when it was pending and no response entry for it
reported a count below the limit. -/
theorem processEtags_mem (limit : Nat) (cs : List (String × Nat))
    (reqs : List String) (d : Bool) (b : String) :
    b ∈ (processEtags limit (reqs, d) cs).1 ↔
      (b ∈ reqs ∧ ∀ p ∈ cs, p.1 = b → ¬ p.2 < limit) := by
  induction cs generalizing reqs d with
  | nil => simp [processEtags]
  | cons hd tl ih =>
    obtain ⟨hb, hc⟩ := hd
    by_cases hlt : hc < limit
    · rw [processEtags, if_pos hlt, ih]
      simp only [List.mem_filter, decide_eq_true_eq]
      constructor
      · rintro ⟨⟨hmem, hne⟩, hall⟩
        refine ⟨hmem, ?_⟩
        intro p hp hfst
        rcases List.mem_cons.mp hp with rfl | hp'
        · exact absurd hfst.symm hne
        · exact hall p hp' hfst
      · rintro ⟨hmem, hall⟩
        refine ⟨⟨hmem, ?_⟩,
          fun p hp hfst => hall p (List.mem_cons_of_mem _ hp) hfst⟩
        intro heq
        exact hall (hb, hc) (List.mem_cons_self _ _) heq.symm hlt
    · rw [processEtags, if_neg hlt, ih]
      constructor
      · rintro ⟨hmem, hall⟩
        refine ⟨hmem, ?_⟩
        intro p hp hfst
        rcases List.mem_cons.mp hp with rfl | hp'
        · exact hlt
        · exact hall p hp' hfst
      · rintro ⟨hmem, hall⟩
        exact ⟨hmem,
          fun p hp hfst => hall p (List.mem_cons_of_mem _ hp) hfst⟩

/-- Helper: the internals-done flag after one response is the starting flag
conjoined with every reported count being below the limit. -/
theorem processEtags_done (limit : Nat) (cs : List (String × Nat))
    (reqs : List String) (d : Bool) :
    (processEtags limit (reqs, d) cs).2 =
      (d && cs.all (fun p => p.2 < limit)) := by
  induction cs generalizing reqs d with
  | nil => simp [processEtags]
  | cons hd tl ih =>
    obtain ⟨hb, hc⟩ := hd
    by_cases hlt : hc < limit
    · rw [processEtags, if_pos hlt, ih]
      simp [hlt]
    · rw [processEtags, if_neg hlt, ih]
      simp [hlt]

/-- C2: (retention) after a batch response in which bucket b reported count
c with c at most the page limit and no other entry names b, b is kept in the
next batch exactly when c equals the limit; (parent last) when a response
covers every pending bucket and leaves internals-done set, every bucket has
been dropped and the run performs exactly the final job-record delete, whose
failure - like (fail fast) an error response to any batch call - ends the
operation with an error and no further batches. -/
theorem jobDelete_spec :
    (∀ limit reqs cs b c, b ∈ reqs → (b, c) ∈ cs →
      (∀ p ∈ cs, p.1 = b → p = (b, c)) → c ≤ limit →
      (b ∈ (processEtags limit (reqs, true) cs).1 ↔ c = limit)) ∧
    (∀ limit finalDeleteOk reqs cs rest,
      (∀ b ∈ reqs, ∃ p ∈ cs, p.1 = b) →
      (processEtags limit (reqs, true) cs).2 = true →
      (processEtags limit (reqs, true) cs).1 = [] ∧
      jobDeleteRun limit finalDeleteOk reqs (BatchResp.etags cs :: rest) =
        ([DelStep.batchDelete reqs, DelStep.deleteJobRecord],
         if finalDeleteOk then DelOutcome.ok else DelOutcome.failed)) ∧
    (∀ limit finalDeleteOk reqs cs rest,
      (processEtags limit (reqs, true) cs).2 = false →
      jobDeleteRun limit finalDeleteOk reqs (BatchResp.etags cs :: rest) =
        (DelStep.batchDelete reqs ::
          (jobDeleteRun limit finalDeleteOk
            (processEtags limit (reqs, true) cs).1 rest).1,
         (jobDeleteRun limit finalDeleteOk
            (processEtags limit (reqs, true) cs).1 rest).2)) ∧
    (∀ limit finalDeleteOk reqs rest,
      jobDeleteRun limit finalDeleteOk reqs (BatchResp.err :: rest) =
        ([DelStep.batchDelete reqs], DelOutcome.failed)) := by
  refine ⟨?_, ?_, ?_, ?_⟩
  · intro limit reqs cs b c hbreq hbc huniq hle
    rw [processEtags_mem]
    constructor
    · rintro ⟨-, hall⟩
      have := hall (b, c) hbc rfl
      omega
    · rintro rfl
      refine ⟨hbreq, ?_⟩
      intro p hp hfst
      have := huniq p hp hfst
      rw [this]
      simp
  · intro limit finalDeleteOk reqs cs rest hcover hdone
    have hempty : (processEtags limit (reqs, true) cs).1 = [] := by
      rw [List.eq_nil_iff_forall_not_mem]
      intro b hb
      rw [processEtags_mem] at hb
      obtain ⟨hmem, hall⟩ := hb
      obtain ⟨p, hp, hfst⟩ := hcover b hmem
      rw [processEtags_done] at hdone
      simp only [Bool.true_and, List.all_eq_true, decide_eq_true_eq] at hdone
      exact hall p hp hfst (hdone p hp)
    refine ⟨hempty, ?_⟩
    rw [jobDeleteRun]
    simp only [hdone, if_pos]
  · intro limit finalDeleteOk reqs cs rest hnotdone
    rw [jobDeleteRun]
    simp [hnotdone]
  · intro limit finalDeleteOk reqs rest
    rfl

/-- C2 witness: with page limit 2, a first response in which the task bucket
hit the limit and the error bucket fell short keeps only the task bucket; a
second response covering it with a short count drops it and the job record
is deleted, completing the run. -/
theorem jobDelete_spec_witness :
    (("task", 2) ∈ [("task", 2), ("error", 1)] ∧ (2 : Nat) ≤ 2 ∧
      ("task" ∈
        (processEtags 2 (["task", "error"], true)
          [("task", 2), ("error", 1)]).1 ↔ (2 : Nat) = 2)) ∧
    ((processEtags 2 (["task"], true) [("task", 1)]).1 = [] ∧
      jobDeleteRun 2 true ["task"] [BatchResp.etags [("task", 1)]] =
        ([DelStep.batchDelete ["task"], DelStep.deleteJobRecord],
         if true then DelOutcome.ok else DelOutcome.failed)) := by
  refine ⟨⟨by decide, by decide, ?_⟩, ?_⟩
  · exact jobDelete_spec.1 2 ["task", "error"] [("task", 2), ("error", 1)]
      "task" 2 (by decide) (by decide) (by decide) (by decide)
  · exact jobDelete_spec.2.1 2 true ["task"] [("task", 1)] []
      (by decide) (by decide)

/-! ## Job/task store client: jobsList (lib/marlin.js lines 1058-1157) -/

/-- One character of the restrictive token pattern used to validate filter
values: an ASCII letter, a digit, an underscore, or a hyphen. -/
def isTokenChar (c : Char) : Bool :=
  c.isAlpha || c.isDigit || c == '_' || c == '-'

/-- Embedding of the token regular expression the filter values are tested
against: one or more token characters spanning the whole string. -/
def matchesTokenPattern (s : String) : Bool :=
  !s.data.isEmpty && s.data.all isTokenChar

/-- JavaScript truthiness of an optional numeric option: present and
nonzero. -/
def jsTruthyNat : Option Nat → Bool
  | none => false
  | some n => n ≠ 0

/-- The wrasse option of jobsList, which distinguishes the JavaScript values
null (no wrasse assigned), true (some wrasse assigned), a concrete instance
string, and the option being absent. -/
inductive WrasseOpt where
  | unset
  | null
  | flag
  | inst (s : String)
  deriving Repr, DecidableEq

/-- The options recognized by jobsList.  The mtimeNot field carries the
option spelled !mtime in the source. -/
structure JobsListOptions where
  state : Option String := none
  name : Option String := none
  owner : Option String := none
  jobId : Option String := none
  worker : Option String := none
  cancelled : Bool := false
  archived : Option Bool := none
  archiveStartedBefore : Option Nat := none
  archivedBefore : Option Nat := none
  wrasse : WrasseOpt := WrasseOpt.unset
  doneSince : Option Nat := none
  mtime : Option Nat := none
  mtimeNot : Option Nat := none
  marker : Option Nat := none
  deriving Repr, DecidableEq

/-- The atomic predicates of the conjunctive Moray filter jobsList builds;
time cutoffs are millisecond values. -/
inductive JobFilter where
  | stateEq (s : String)
  | nameEq (s : String)
  | ownerEq (s : String)
  | jobIdEq (s : String)
  | workerEq (s : String)
  | cancelledPresent
  | archiveDonePresent
  | archiveDoneAbsent
  | archiveStartedLe (t : Nat)
  | archiveDoneLe (t : Nat)
  | wrasseAbsent
  | wrassePresent
  | wrasseEq (s : String)
  | doneGe (t : Nat)
  | mtimeGe (t : Nat)
  | mtimeLe (t : Nat)
  | jobIdPresent
  | idGe (m : Nat)
  deriving Repr, DecidableEq

/-- state filter: included when the option is truthy and names one of the
recognized job states. -/
def stateFilter (sJobStates : List String) (o : JobsListOptions) :
    List JobFilter :=
  match o.state with
  | some s => if s ≠ "" && sJobStates.contains s then [JobFilter.stateEq s]
              else []
  | none => []

/-- name filter: included when the option is truthy and matches the token
pattern. -/
def nameFilter (o : JobsListOptions) : List JobFilter :=
  match o.name with
  | some s => if s ≠ "" && matchesTokenPattern s then [JobFilter.nameEq s]
              else []
  | none => []

/-- owner filter: included when the option is truthy and matches the token
pattern; otherwise silently omitted. -/
def ownerFilter (o : JobsListOptions) : List JobFilter :=
  match o.owner with
  | some s => if s ≠ "" && matchesTokenPattern s then [JobFilter.ownerEq s]
              else []
  | none => []

/-- jobId filter: included when the option is truthy and matches the token
pattern. -/
def jobIdFilter (o : JobsListOptions) : List JobFilter :=
  match o.jobId with
  | some s => if s ≠ "" && matchesTokenPattern s then [JobFilter.jobIdEq s]
              else []
  | none => []

/-- worker filter: included when the option is truthy and matches the token
pattern. -/
def workerFilter (o : JobsListOptions) : List JobFilter :=
  match o.worker with
  | some s => if s ≠ "" && matchesTokenPattern s then [JobFilter.workerEq s]
              else []
  | none => []

/-- cancelled filter: presence of timeCancelled when the option is truthy. -/
def cancelledFilter (o : JobsListOptions) : List JobFilter :=
  if o.cancelled then [JobFilter.cancelledPresent] else []

/-- archived filter: presence of timeArchiveDone when exactly true, absence
when exactly false. -/
def archivedFilter (o : JobsListOptions) : List JobFilter :=
  match o.archived with
  | some true => [JobFilter.archiveDonePresent]
  | some false => [JobFilter.archiveDoneAbsent]
  | none => []

/-- archiveStartedBefore filter: timeArchiveStarted at most now minus the
given number of seconds. -/
def archiveStartedBeforeFilter (now : Nat) (o : JobsListOptions) :
    List JobFilter :=
  match o.archiveStartedBefore with
  | some v => if v ≠ 0 then [JobFilter.archiveStartedLe (now - v * 1000)]
              else []
  | none => []

/-- archivedBefore filter: timeArchiveDone at most now minus the given
number of seconds. -/
def archivedBeforeFilter (now : Nat) (o : JobsListOptions) :
    List JobFilter :=
  match o.archivedBefore with
  | some v => if v ≠ 0 then [JobFilter.archiveDoneLe (now - v * 1000)]
              else []
  | none => []

/-- wrasse filter: absence for null, presence for true, equality for a
truthy instance string matching the token pattern. -/
def wrasseFilter (o : JobsListOptions) : List JobFilter :=
  match o.wrasse with
  | WrasseOpt.null => [JobFilter.wrasseAbsent]
  | WrasseOpt.flag => [JobFilter.wrassePresent]
  | WrasseOpt.inst s =>
      if s ≠ "" && matchesTokenPattern s then [JobFilter.wrasseEq s] else []
  | WrasseOpt.unset => []

/-- doneSince filter: timeDone at least now minus the given number of
seconds. -/
def doneSinceFilter (now : Nat) (o : JobsListOptions) : List JobFilter :=
  match o.doneSince with
  | some v => if v ≠ 0 then [JobFilter.doneGe (now - v * 1000)] else []
  | none => []

/-- mtime filter: record modification time at least now minus the given
number of seconds. -/
def mtimeFilter (now : Nat) (o : JobsListOptions) : List JobFilter :=
  match o.mtime with
  | some v => if v ≠ 0 then [JobFilter.mtimeGe (now - v * 1000)] else []
  | none => []

/-- !mtime filter: record modification time at most now minus the given
number of seconds. -/
def mtimeNotFilter (now : Nat) (o : JobsListOptions) : List JobFilter :=
  match o.mtimeNot with
  | some v => if v ≠ 0 then [JobFilter.mtimeLe (now - v * 1000)] else []
  | none => []

/-- The filters pushed by jobsList, in source order. -/
def jobsListFilters (sJobStates : List String) (now : Nat)
    (o : JobsListOptions) : List JobFilter :=
  stateFilter sJobStates o ++ nameFilter o ++ ownerFilter o ++
    jobIdFilter o ++ workerFilter o ++ cancelledFilter o ++
    archivedFilter o ++ archiveStartedBeforeFilter now o ++
    archivedBeforeFilter now o ++ wrasseFilter o ++ doneSinceFilter now o ++
    mtimeFilter now o ++ mtimeNotFilter now o

/-- marker filter: resume pagination at records with internal id at least
the truthy marker. -/
def markerFilter (o : JobsListOptions) : List JobFilter :=
  match o.marker with
  | some m => if m ≠ 0 then [JobFilter.idGe m] else []
  | none => []

/-- The complete conjunctive query jobsList sends: the accumulated filters
plus the marker when any filter was pushed, otherwise the degenerate
jobId-present query (all jobs) plus the marker. -/
def jobsListQuery (sJobStates : List String) (now : Nat)
    (o : JobsListOptions) : List JobFilter :=
  let fs := jobsListFilters sJobStates now o
  if fs.isEmpty then JobFilter.jobIdPresent :: markerFilter o
  else fs ++ markerFilter o

/-- A job record as stored in Moray, with the internal id and modification
time metadata the query filters can refer to. -/
structure StoredJob where
  value : Job
  recId : Nat
  mtime : Nat
  deriving Repr, DecidableEq

/-- Comparison of an optional time field against a cutoff: at least. -/
def optGe (x : Option Nat) (t : Nat) : Bool :=
  match x with
  | some v => t ≤ v
  | none => false

/-- Comparison of an optional time field against a cutoff: at most. -/
def optLe (x : Option Nat) (t : Nat) : Bool :=
  match x with
  | some v => v ≤ t
  | none => false

/-- Semantics of one atomic filter on a stored job record, following the
documented Moray filter language: equality, presence, and range
comparisons. -/
def jobFilterMatches (r : StoredJob) : JobFilter → Bool
  | JobFilter.stateEq s => r.value.state == s
  | JobFilter.nameEq s => r.value.name == s
  | JobFilter.ownerEq s => r.value.owner == s
  | JobFilter.jobIdEq s => r.value.jobId == s
  | JobFilter.workerEq s => r.value.worker == some s
  | JobFilter.cancelledPresent => r.value.timeCancelled.isSome
  | JobFilter.archiveDonePresent => r.value.timeArchiveDone.isSome
  | JobFilter.archiveDoneAbsent => !r.value.timeArchiveDone.isSome
  | JobFilter.archiveStartedLe t => optLe r.value.timeArchiveStarted t
  | JobFilter.archiveDoneLe t => optLe r.value.timeArchiveDone t
  | JobFilter.wrasseAbsent => !r.value.wrasse.isSome
  | JobFilter.wrassePresent => r.value.wrasse.isSome
  | JobFilter.wrasseEq s => r.value.wrasse == some s
  | JobFilter.doneGe t => optGe r.value.timeDone t
  | JobFilter.mtimeGe t => t ≤ r.mtime
  | JobFilter.mtimeLe t => r.mtime ≤ t
  | JobFilter.jobIdPresent => true
  | JobFilter.idGe m => m ≤ r.recId

/-- Embedding of jobsList: the records of the job bucket satisfying every
atom of the conjunctive query. -/
def jobsList (records : List StoredJob) (sJobStates : List String)
    (now : Nat) (o : JobsListOptions) : List StoredJob :=
  records.filter
    (fun r => (jobsListQuery sJobStates now o).all (jobFilterMatches r))

/-- C8: supplying the owner value bob; drop, which fails the token pattern,
silently omits the owner constraint - the query and its results are
identical to those of the same options without an owner - and every record
returned for owner bob123 has an owner accepted by the token pattern. -/
theorem jobsList_owner_spec :
    (∀ (records : List StoredJob) (sJobStates : List String) (now : Nat)
      (o : JobsListOptions),
      jobsList records sJobStates now { o with owner := some "bob; drop" } =
        jobsList records sJobStates now { o with owner := none }) ∧
    (∀ (records : List StoredJob) (sJobStates : List String) (now : Nat)
      (o : JobsListOptions) (r : StoredJob),
      r ∈ jobsList records sJobStates now { o with owner := some "bob123" } →
      matchesTokenPattern r.value.owner = true) := by
  have hgood : (("bob123" : String) ≠ "" &&
      matchesTokenPattern "bob123") = true := by decide
  constructor
  · intro records sJobStates now o
    have hbad : (("bob; drop" : String) ≠ "" &&
        matchesTokenPattern "bob; drop") = false := by decide
    have hfeq : jobsListFilters sJobStates now
          { o with owner := some "bob; drop" } =
        jobsListFilters sJobStates now { o with owner := none } := by
      simp only [jobsListFilters, stateFilter, nameFilter, ownerFilter,
        jobIdFilter, workerFilter, cancelledFilter, archivedFilter,
        archiveStartedBeforeFilter, archivedBeforeFilter, wrasseFilter,
        doneSinceFilter, mtimeFilter, mtimeNotFilter, hbad]
      simp
    have hmk : markerFilter { o with owner := some "bob; drop" } =
        markerFilter { o with owner := none } := rfl
    have hqeq : jobsListQuery sJobStates now
          { o with owner := some "bob; drop" } =
        jobsListQuery sJobStates now { o with owner := none } := by
      simp only [jobsListQuery, hfeq, hmk]
    simp only [jobsList, hqeq]
  · intro records sJobStates now o r hr
    have h1 : JobFilter.ownerEq "bob123" ∈
        jobsListFilters sJobStates now { o with owner := some "bob123" } := by
      have howner : ownerFilter { o with owner := some "bob123" } =
          [JobFilter.ownerEq "bob123"] := by
        simp only [ownerFilter]
        rw [if_pos hgood]
      unfold jobsListFilters
      rw [howner]
      simp
    have hmem : JobFilter.ownerEq "bob123" ∈
        jobsListQuery sJobStates now { o with owner := some "bob123" } := by
      have hne := List.ne_nil_of_mem h1
      simp only [jobsListQuery]
      rw [if_neg (by simpa using hne)]
      exact List.mem_append_left _ h1
    unfold jobsList at hr
    rw [List.mem_filter] at hr
    have hall := hr.2
    rw [List.all_eq_true] at hall
    have hmatch := hall _ hmem
    simp only [jobFilterMatches, beq_iff_eq] at hmatch
    rw [hmatch]
    decide

/-- Sample job value for the C8 witness. -/
def sampleListedJob : Job :=
  { jobId := "j1", name := "", owner := "bob123", state := "queued",
    timeCreated := some 1 }

/-- Sample stored job for the C8 witness. -/
def sampleStoredJob : StoredJob :=
  { value := sampleListedJob, recId := 10, mtime := 50 }

/-- C8 witness: the single record with owner bob123 is returned by the
owner-filtered listing, and its owner passes the token pattern. -/
theorem jobsList_owner_spec_witness :
    (sampleStoredJob ∈ jobsList [sampleStoredJob] ["queued"] 99
      { owner := some "bob123" }) ∧
    matchesTokenPattern sampleStoredJob.value.owner = true :=
  ⟨by decide,
    jobsList_owner_spec.2 [sampleStoredJob] ["queued"] 99
      { owner := none } sampleStoredJob (by decide)⟩

end Marlin
